import Mathlib

/-!
Shallow embedding of `fixture-io` (`src/lib.rs`): a scripted stand-in for a
non-blocking byte stream.  The `FixtureIo` struct of the source is embedded as
`Fixture` below; its `timer` field (a `tokio_timer::Timer` handle) is replaced
by an oracle parameter `now : Nat → Bool` telling whether a freshly started
sleep of a given duration is already elapsed at the moment it is first polled,
and the parked task of `futures::task::park()` is represented by a `TaskId`
parameter `t`.  Unpark effects (`Task::unpark`) are returned as a list of
woken task ids.  Byte values are `Nat` (only compared for equality) and
`Duration` is a `Nat` number of time units.
-/

namespace Fx

/-- Byte values of the buffers (`u8` in the source; only equality is used). -/
abbrev Byte := Nat

/-- Time durations (`std::time::Duration`; the unit is irrelevant here). -/
abbrev Dur := Nat

/-- Identity of a cooperative task (`futures::task::Task`). -/
abbrev TaskId := Nat

/-- Embeds `std::io::Cursor<Vec<u8>>`: a byte buffer plus a position. -/
structure Cursor where
  data : List Byte
  pos : Nat
deriving Repr, DecidableEq

/-- Remaining bytes of a cursor (`Buf::remaining`): `len - position`. -/
def Cursor.remaining (c : Cursor) : Nat := c.data.length - c.pos

/-- Embeds `Buf::has_remaining`: `remaining() > 0`. -/
def Cursor.hasRemaining (c : Cursor) : Bool := c.remaining != 0

/-- Embeds `tokio_timer::Sleep`: the requested duration together with the
fixed answer its `poll` gives during the call being modelled. -/
structure SleepT where
  dur : Dur
  done : Bool
deriving Repr, DecidableEq

/-- Embeds `enum Action`: one scripted step. -/
inductive Action where
  | read (data : List Byte)
  | write (data : List Byte)
  | wait (dur : Dur)
deriving Repr, DecidableEq

/-- Embeds `enum State`: the live realization of the head action. -/
inductive State where
  | reading (c : Cursor)
  | writing (c : Cursor)
  | waiting (s : SleepT)
deriving Repr, DecidableEq

/-- Embeds `State::is_reading`. -/
def State.isReading : State → Bool
  | .reading _ => true
  | _ => false

/-- Embeds `struct FixtureIo` (named `Fixture` here): the optional active
state, the action queue (front of the list = front of the `VecDeque`), and
the single-slot reader registration.  The `timer` field of the source is
replaced by the `now` oracle passed to each operation. -/
structure Fixture where
  state : Option State
  actions : List Action
  read_wait : Option TaskId
deriving Repr, DecidableEq

/-- Embeds `FixtureIo::empty`. -/
def Fixture.empty : Fixture := { state := none, actions := [], read_wait := none }

/-- Embeds `FixtureIo::then_read`. -/
def Fixture.then_read (fx : Fixture) (data : List Byte) : Fixture :=
  { fx with actions := fx.actions ++ [Action.read data] }

/-- Embeds `FixtureIo::then_write`. -/
def Fixture.then_write (fx : Fixture) (data : List Byte) : Fixture :=
  { fx with actions := fx.actions ++ [Action.write data] }

/-- Embeds `FixtureIo::then_wait`. -/
def Fixture.then_wait (fx : Fixture) (dur : Dur) : Fixture :=
  { fx with actions := fx.actions ++ [Action.wait dur] }

/-- Embeds `FixtureIo::is_current_action_complete`: a `Waiting` state is
complete when its sleep polls ready, a `Reading`/`Writing` state when its
cursor has no remaining bytes. -/
def Fixture.isCurrentActionComplete (fx : Fixture) : Bool :=
  match fx.state with
  | some (.waiting s) => s.done
  | some (.reading c) => !c.hasRemaining
  | some (.writing c) => !c.hasRemaining
  | none => false

/-- Embeds the private `FixtureIo::state` method (the Driver): discard a
complete active state, then, if no state is left, pop the next action and
materialize it; a popped `Wait` starts a sleep (`timer.sleep(dur)`), polls it
once, and if it is already ready unparks the current task
(`task::park().unpark()`).  Returns the resulting active state, the updated
fixture, and the list of unparked tasks. -/
def Fixture.stateStep (now : Dur → Bool) (t : TaskId) (fx : Fixture) :
    Option State × Fixture × List TaskId :=
  let fx1 := if fx.isCurrentActionComplete then { fx with state := none } else fx
  if fx1.state.isNone then
    match fx1.actions with
    | Action.read d :: rest =>
      let fx2 := { fx1 with state := some (.reading ⟨d, 0⟩), actions := rest }
      (fx2.state, fx2, [])
    | Action.write d :: rest =>
      let fx2 := { fx1 with state := some (.writing ⟨d, 0⟩), actions := rest }
      (fx2.state, fx2, [])
    | Action.wait dur :: rest =>
      let s : SleepT := ⟨dur, now dur⟩
      let fx2 := { fx1 with state := some (.waiting s), actions := rest }
      (fx2.state, fx2, if s.done then [t] else [])
    | [] => (none, fx1, [])
  else (fx1.state, fx1, [])

/-- Tests whether a driver-reported state is `Reading` or exhausted, the
condition of the `match` inside `maybe_wakeup_reader`. -/
def readingOrNone : Option State → Bool
  | some (.reading _) => true
  | none => true
  | _ => false

/-- Embeds `FixtureIo::maybe_wakeup_reader`: advance the driver, and if the
resulting state is `Reading` or `None`, take and unpark any registered
reader. -/
def Fixture.maybeWakeupReader (now : Dur → Bool) (t : TaskId) (fx : Fixture) :
    Fixture × List TaskId :=
  let r := fx.stateStep now t
  if readingOrNone r.1 then
    match r.2.1.read_wait with
    | some w => ({ r.2.1 with read_wait := none }, r.2.2 ++ [w])
    | none => (r.2.1, r.2.2)
  else (r.2.1, r.2.2)

/-- Embeds `FixtureIo::poll_read` (`Io` impl): ready when the driver reports
`Reading` or `None`; otherwise the current task is stored in `read_wait`
(overwriting any previous registration). -/
def Fixture.pollRead (now : Dur → Bool) (t : TaskId) (fx : Fixture) :
    Bool × Fixture × List TaskId :=
  let r := fx.stateStep now t
  let ready := match r.1 with
    | some st => st.isReading
    | none => true
  if ready then (true, r.2.1, r.2.2)
  else (false, { r.2.1 with read_wait := some t }, r.2.2)

/-- Embeds `Async<()>` of futures 0.1 as far as `poll_write` needs it. -/
inductive Async where
  | ready
  | notReady
deriving Repr, DecidableEq

/-- Embeds `FixtureIo::poll_write`: the source unconditionally returns
`Async::NotReady` (it never touches the fixture). -/
def Fixture.pollWrite (_ : Fixture) : Async := Async.notReady

/-- Outcome of `io::Read::read`; `ok bytes` abstracts `Ok(n)` together with
the bytes deposited in the destination (`n = bytes.length`), `wouldBlock` the
`ErrorKind::WouldBlock` error, and `panicked` the `unreachable!()` abort. -/
inductive ReadResult where
  | ok (bytes : List Byte)
  | wouldBlock
  | panicked
deriving Repr, DecidableEq

/-- Embeds `io::Read::read` for `FixtureIo`, with the destination buffer
abstracted by its length: check `poll_read`; if not ready return would-block;
otherwise re-enter the driver and either copy
`min(dstLen, remaining)` bytes out of a `Reading` cursor (`Buf::copy_to`),
advancing its position, or return `Ok(0)` at end of script.  Only the
data-copying path calls `maybe_wakeup_reader`; the EOF arm returns early. -/
def Fixture.readStep (now : Dur → Bool) (t : TaskId) (fx : Fixture) (dstLen : Nat) :
    ReadResult × Fixture × List TaskId :=
  let p := fx.pollRead now t
  if !p.1 then (.wouldBlock, p.2.1, p.2.2)
  else
    let r := p.2.1.stateStep now t
    match r.1 with
    | some (.reading c) =>
      let n := min dstLen c.remaining
      let bytes := (c.data.drop c.pos).take n
      let fx2 := { r.2.1 with state := some (.reading ⟨c.data, c.pos + n⟩) }
      let m := fx2.maybeWakeupReader now t
      (.ok bytes, m.1, p.2.2 ++ r.2.2 ++ m.2)
    | none => (.ok [], r.2.1, p.2.2 ++ r.2.2)
    | some _ => (.panicked, r.2.1, p.2.2 ++ r.2.2)

/-- Outcome of `io::Write::write`; `panicked` abstracts the fatal
`assert_eq!` failure on a byte mismatch. -/
inductive WriteResult where
  | ok (n : Nat)
  | wouldBlock
  | brokenPipe
  | panicked
deriving Repr, DecidableEq

/-- Embeds `io::Write::write` for `FixtureIo`: enter the driver; on a
`Writing` state compare `min(len(src), remaining)` bytes of `src` against the
expected bytes at the position (`assert_eq!`, a mismatch aborts), advance the
position by that count and return it, then call `maybe_wakeup_reader`; on
`None` return broken-pipe; on any other state return would-block. -/
def Fixture.writeStep (now : Dur → Bool) (t : TaskId) (fx : Fixture) (src : List Byte) :
    WriteResult × Fixture × List TaskId :=
  let r := fx.stateStep now t
  match r.1 with
  | some (.writing c) =>
    let expected := c.data.drop c.pos
    let n := min expected.length src.length
    if src.take n = expected.take n then
      let fx2 := { r.2.1 with state := some (.writing ⟨c.data, c.pos + n⟩) }
      let m := fx2.maybeWakeupReader now t
      (.ok n, m.1, r.2.2 ++ m.2)
    else (.panicked, r.2.1, r.2.2)
  | none => (.brokenPipe, r.2.1, r.2.2)
  | some _ => (.wouldBlock, r.2.1, r.2.2)

/-- Direction tag of an `io_dump` capture block (`Direction::In` is a block
written by the peer to us, `Direction::Out` one sent by us to the peer). -/
inductive Direction where
  | din
  | dout
deriving Repr, DecidableEq

/-- One block of an `io_dump::Dump` capture: direction, payload, and elapsed
time since the start of the capture. -/
structure Block where
  direction : Direction
  data : List Byte
  elapsed : Dur
deriving Repr, DecidableEq

/-- Result of `FixtureIo::load`; `panicked` records the fatal abort caused by
`block.elapsed() - last` when the minuend is smaller (Rust
`Duration` subtraction panics on underflow: "overflow when subtracting
durations"), which is distinct from the recoverable `io::Result` error that
`load` propagates from `Dump::open`. -/
inductive LoadResult where
  | ok (fx : Fixture)
  | panicked
deriving Repr, DecidableEq

/-- Loop body of `FixtureIo::load` over the already-opened block sequence:
an `In` block appends a `Write` action; an `Out` block appends a `Wait` of
`elapsed - last` followed by a `Read`; `last` becomes the block's elapsed
time after every block.  `elapsed < last` reproduces the `Duration`
subtraction panic. -/
def loadGo (fx : Fixture) (last : Dur) : List Block → LoadResult
  | [] => .ok fx
  | b :: rest =>
    match b.direction with
    | .din => loadGo (fx.then_write b.data) b.elapsed rest
    | .dout =>
      if b.elapsed < last then .panicked
      else loadGo ((fx.then_wait (b.elapsed - last)).then_read b.data) b.elapsed rest

/-- Embeds `FixtureIo::load`, starting from `FixtureIo::empty` and
`last = 0`, over a capture already decoded into blocks (the `Dump::open`
I/O and parsing is the out-of-scope collaborator). -/
def Fixture.load (blocks : List Block) : LoadResult :=
  loadGo Fixture.empty 0 blocks

/-- Builds, from the words of the spec, the action list that `load` is
claimed to produce: block by block in order, a peer-to-us block of payload
`p` contributes `Write(p)`; an us-to-peer block of payload `p` at elapsed
`t` contributes `Wait(t - last)` then `Read(p)`, where `last` is the elapsed
time of the previous block. -/
def loadSpecActions : Dur → List Block → List Action
  | _, [] => []
  | last, b :: rest =>
    match b.direction with
    | .din => Action.write b.data :: loadSpecActions b.elapsed rest
    | .dout =>
      Action.wait (b.elapsed - last) :: Action.read b.data :: loadSpecActions b.elapsed rest

/-- Advancing the driver never changes the reader registration slot. -/
theorem stateStep_read_wait (now : Dur → Bool) (t : TaskId) (fx : Fixture) :
    ((fx.stateStep now t).2.1).read_wait = fx.read_wait := by
  obtain ⟨s, a, w⟩ := fx
  simp only [Fixture.stateStep]
  split <;> split <;> first | rfl | (split <;> rfl)

/-- The driver leaves an unfinished `Writing` state in place. -/
theorem stateStep_writing_incomplete (now : Dur → Bool) (t : TaskId)
    (a : List Action) (w : Option TaskId) (c : Cursor) (h : c.pos < c.data.length) :
    Fixture.stateStep now t ⟨some (State.writing c), a, w⟩
      = (some (State.writing c), ⟨some (State.writing c), a, w⟩, []) := by
  have hrem : c.hasRemaining = true := by
    simp [Cursor.hasRemaining, Cursor.remaining]; omega
  simp [Fixture.stateStep, Fixture.isCurrentActionComplete, hrem]

/-- The driver leaves an unfinished `Reading` state in place. -/
theorem stateStep_reading_incomplete (now : Dur → Bool) (t : TaskId)
    (a : List Action) (w : Option TaskId) (c : Cursor) (h : c.pos < c.data.length) :
    Fixture.stateStep now t ⟨some (State.reading c), a, w⟩
      = (some (State.reading c), ⟨some (State.reading c), a, w⟩, []) := by
  have hrem : c.hasRemaining = true := by
    simp [Cursor.hasRemaining, Cursor.remaining]; omega
  simp [Fixture.stateStep, Fixture.isCurrentActionComplete, hrem]

/-- The driver leaves an unfinished `Waiting` state in place. -/
theorem stateStep_waiting_pending (now : Dur → Bool) (t : TaskId)
    (a : List Action) (w : Option TaskId) (s : SleepT) (h : s.done = false) :
    Fixture.stateStep now t ⟨some (State.waiting s), a, w⟩
      = (some (State.waiting s), ⟨some (State.waiting s), a, w⟩, []) := by
  simp [Fixture.stateStep, Fixture.isCurrentActionComplete, h]

/-- The driver reports the exhausted script unchanged. -/
theorem stateStep_exhausted (now : Dur → Bool) (t : TaskId) (w : Option TaskId) :
    Fixture.stateStep now t ⟨none, [], w⟩ = (none, ⟨none, [], w⟩, []) := by
  simp [Fixture.stateStep, Fixture.isCurrentActionComplete]

/-- C1: when the current Active State is an unfinished `Writing(buffer, position)`
(the Driver discards complete states on every access), a `write(src)` whose
first `min(len(src), len(buffer) - position)` bytes equal the expected bytes
starting at the position returns exactly that count, advancing the position by
it, while a mismatch among those compared bytes aborts with the fatal
assertion failure and never yields a success count. -/
theorem c1_write_match_or_abort (now : Dur → Bool) (t : TaskId) (fx : Fixture)
    (c : Cursor) (src : List Byte)
    (hs : fx.state = some (State.writing c)) (hp : c.pos < c.data.length) :
    (src.take (min (c.data.length - c.pos) src.length)
        = (c.data.drop c.pos).take (min (c.data.length - c.pos) src.length) →
      (fx.writeStep now t src).1 = WriteResult.ok (min (c.data.length - c.pos) src.length) ∧
      (c.pos + min (c.data.length - c.pos) src.length < c.data.length →
        (fx.writeStep now t src).2.1.state
          = some (State.writing ⟨c.data, c.pos + min (c.data.length - c.pos) src.length⟩))) ∧
    (src.take (min (c.data.length - c.pos) src.length)
        ≠ (c.data.drop c.pos).take (min (c.data.length - c.pos) src.length) →
      (fx.writeStep now t src).1 = WriteResult.panicked) := by
  obtain ⟨s, a, w⟩ := fx
  have hs2 : s = some (State.writing c) := hs
  subst hs2
  have hstep := stateStep_writing_incomplete now t a w c hp
  refine ⟨fun hmatch => ⟨?_, fun hq => ?_⟩, fun hmis => ?_⟩
  · simp [Fixture.writeStep, hstep, List.length_drop, hmatch]
  · have hstep2 := stateStep_writing_incomplete now t a w
      ⟨c.data, c.pos + min (c.data.length - c.pos) src.length⟩ hq
    simp [Fixture.writeStep, hstep, List.length_drop, hmatch,
      Fixture.maybeWakeupReader, hstep2, readingOrNone]
  · simp [Fixture.writeStep, hstep, List.length_drop, hmis]

/-- Witness for C1 at `Writing("ping", 0)`: `write("pi")` returns count 2,
while `write("po")` hits the fatal assertion. -/
theorem c1_write_match_or_abort_witness :
    (Fixture.writeStep (fun _ => false) 0
        ⟨some (State.writing ⟨[112,105,110,103], 0⟩), [], none⟩ [112,105]).1
      = WriteResult.ok 2 ∧
    (Fixture.writeStep (fun _ => false) 0
        ⟨some (State.writing ⟨[112,105,110,103], 0⟩), [], none⟩ [112,111]).1
      = WriteResult.panicked := by
  constructor
  · exact ((c1_write_match_or_abort (fun _ => false) 0
      ⟨some (State.writing ⟨[112,105,110,103], 0⟩), [], none⟩ ⟨[112,105,110,103], 0⟩
      [112,105] rfl (by decide)).1 (by decide)).1
  · exact (c1_write_match_or_abort (fun _ => false) 0
      ⟨some (State.writing ⟨[112,105,110,103], 0⟩), [], none⟩ ⟨[112,105,110,103], 0⟩
      [112,111] rfl (by decide)).2 (by decide)

/-- C2: when the current Active State is an unfinished `Reading(buffer, position)`,
`read(dst)` returns exactly the `min(len(dst), len(buffer) - position)` bytes of
the buffer starting at the position (so the returned count is that minimum) and
advances the position by that count; when the script is exhausted (no Active
State and an empty queue) `read` returns count 0, the end-of-stream signal.  In
particular `empty().then_read("hello")` serves the five bytes of `"hello"` to a
10-byte destination and a subsequent read returns count 0. -/
theorem c2_read_copies (now : Dur → Bool) (t : TaskId) :
    (∀ (fx : Fixture) (c : Cursor) (dstLen : Nat),
      fx.state = some (State.reading c) → c.pos < c.data.length →
      (fx.readStep now t dstLen).1
          = ReadResult.ok ((c.data.drop c.pos).take (min dstLen (c.data.length - c.pos))) ∧
      ((c.data.drop c.pos).take (min dstLen (c.data.length - c.pos))).length
          = min dstLen (c.data.length - c.pos) ∧
      (c.pos + min dstLen (c.data.length - c.pos) < c.data.length →
        (fx.readStep now t dstLen).2.1.state
          = some (State.reading ⟨c.data, c.pos + min dstLen (c.data.length - c.pos)⟩)))
    ∧ (∀ (fx : Fixture) (dstLen : Nat), fx.state = none → fx.actions = [] →
        fx.readStep now t dstLen = (ReadResult.ok [], fx, []))
    ∧ ((Fixture.empty.then_read [104,101,108,108,111]).readStep now t 10).1
        = ReadResult.ok [104,101,108,108,111]
    ∧ (((Fixture.empty.then_read [104,101,108,108,111]).readStep now t 10).2.1.readStep
          now t 10).1 = ReadResult.ok [] := by
  refine ⟨?_, ?_, ?_, ?_⟩
  · intro fx c dstLen hs hp
    obtain ⟨s, a, w⟩ := fx
    have hs2 : s = some (State.reading c) := hs
    subst hs2
    have hstep := stateStep_reading_incomplete now t a w c hp
    refine ⟨?_, ?_, fun hq => ?_⟩
    · simp [Fixture.readStep, Fixture.pollRead, hstep, State.isReading, Cursor.remaining]
    · simp only [List.length_take, List.length_drop]
      omega
    · have hstep2 := stateStep_reading_incomplete now t a w
        ⟨c.data, c.pos + min dstLen (c.data.length - c.pos)⟩ hq
      cases w <;>
        simp [Fixture.readStep, Fixture.pollRead, hstep, State.isReading, Cursor.remaining,
          Fixture.maybeWakeupReader, hstep2, readingOrNone]
  · intro fx dstLen hs ha
    obtain ⟨s, a, w⟩ := fx
    have hs2 : s = none := hs
    have ha2 : a = [] := ha
    subst hs2; subst ha2
    simp [Fixture.readStep, Fixture.pollRead, stateStep_exhausted]
  · rfl
  · rfl

/-- Witness for C2: a fixture in state `Reading([5,6,7], 1)` serves `[6]` to a
one-byte destination, and the exhausted fixture reports end of stream. -/
theorem c2_read_copies_witness :
    (Fixture.readStep (fun _ => false) 0
        ⟨some (State.reading ⟨[5,6,7], 1⟩), [], none⟩ 1).1 = ReadResult.ok [6] ∧
    Fixture.readStep (fun _ => false) 0 ⟨none, [], none⟩ 4
      = (ReadResult.ok [], ⟨none, [], none⟩, []) := by
  constructor
  · exact ((c2_read_copies (fun _ => false) 0).1
      ⟨some (State.reading ⟨[5,6,7], 1⟩), [], none⟩ ⟨[5,6,7], 1⟩ 1 rfl (by decide)).1
  · exact (c2_read_copies (fun _ => false) 0).2.1 ⟨none, [], none⟩ 4 rfl rfl

/-- C3: a `write` on an exhausted script (no Active State, empty queue) returns
the permanent broken-pipe failure; a `write` while the Active State is
`Reading` or an unfinished `Waiting` returns the transient would-block
condition; in all three cases the fixture is returned unchanged (no script
state is consumed).  In particular `empty().then_write("ping")` accepts
`"pin"` (count 3) then `"g"` (count 1) and answers a further `"x"` with
broken-pipe. -/
theorem c3_write_errors (now : Dur → Bool) (t : TaskId) :
    (∀ (fx : Fixture) (src : List Byte), fx.state = none → fx.actions = [] →
        fx.writeStep now t src = (WriteResult.brokenPipe, fx, []))
  ∧ (∀ (fx : Fixture) (c : Cursor) (src : List Byte),
        fx.state = some (State.reading c) → c.pos < c.data.length →
        fx.writeStep now t src = (WriteResult.wouldBlock, fx, []))
  ∧ (∀ (fx : Fixture) (sl : SleepT) (src : List Byte),
        fx.state = some (State.waiting sl) → sl.done = false →
        fx.writeStep now t src = (WriteResult.wouldBlock, fx, []))
  ∧ ((Fixture.empty.then_write [112,105,110,103]).writeStep now t [112,105,110]).1
        = WriteResult.ok 3
  ∧ (((Fixture.empty.then_write [112,105,110,103]).writeStep now t
        [112,105,110]).2.1.writeStep now t [103]).1 = WriteResult.ok 1
  ∧ ((((Fixture.empty.then_write [112,105,110,103]).writeStep now t
        [112,105,110]).2.1.writeStep now t [103]).2.1.writeStep now t [120]).1
        = WriteResult.brokenPipe := by
  refine ⟨?_, ?_, ?_, rfl, rfl, rfl⟩
  · intro fx src hs ha
    obtain ⟨st, a, w⟩ := fx
    have hs2 : st = none := hs
    have ha2 : a = [] := ha
    subst hs2; subst ha2
    simp [Fixture.writeStep, stateStep_exhausted]
  · intro fx c src hs hp
    obtain ⟨st, a, w⟩ := fx
    have hs2 : st = some (State.reading c) := hs
    subst hs2
    simp [Fixture.writeStep, stateStep_reading_incomplete now t a w c hp]
  · intro fx sl src hs hd
    obtain ⟨st, a, w⟩ := fx
    have hs2 : st = some (State.waiting sl) := hs
    subst hs2
    simp [Fixture.writeStep, stateStep_waiting_pending now t a w sl hd]

/-- Witness for C3: broken-pipe on the exhausted fixture, would-block while
reading `[9]` and while an unfinished wait of 5 units is pending. -/
theorem c3_write_errors_witness :
    Fixture.writeStep (fun _ => false) 0 ⟨none, [], none⟩ [1]
      = (WriteResult.brokenPipe, ⟨none, [], none⟩, []) ∧
    Fixture.writeStep (fun _ => false) 0 ⟨some (State.reading ⟨[9], 0⟩), [], none⟩ [1]
      = (WriteResult.wouldBlock, ⟨some (State.reading ⟨[9], 0⟩), [], none⟩, []) ∧
    Fixture.writeStep (fun _ => false) 0 ⟨some (State.waiting ⟨5, false⟩), [], none⟩ [1]
      = (WriteResult.wouldBlock, ⟨some (State.waiting ⟨5, false⟩), [], none⟩, []) := by
  refine ⟨?_, ?_, ?_⟩
  · exact (c3_write_errors (fun _ => false) 0).1 ⟨none, [], none⟩ [1] rfl rfl
  · exact (c3_write_errors (fun _ => false) 0).2.1
      ⟨some (State.reading ⟨[9], 0⟩), [], none⟩ ⟨[9], 0⟩ [1] rfl (by decide)
  · exact (c3_write_errors (fun _ => false) 0).2.2.1
      ⟨some (State.waiting ⟨5, false⟩), [], none⟩ ⟨5, false⟩ [1] rfl rfl

/-- C4: a `read` issued while the driver-advanced (possibly freshly promoted)
Active State is `Writing` or an unfinished `Waiting` returns the transient
would-block condition, stores the current task as the sole pending reader
(overwriting any previous registration), and moves no bytes. -/
theorem c4_read_would_block (now : Dur → Bool) (t : TaskId) (fx : Fixture)
    (dstLen : Nat) (s : State) (fx1 : Fixture) (effs : List TaskId)
    (h : fx.stateStep now t = (some s, fx1, effs))
    (hs : (∃ c, s = State.writing c) ∨ (∃ sl, s = State.waiting sl ∧ sl.done = false)) :
    fx.readStep now t dstLen
      = (ReadResult.wouldBlock, { fx1 with read_wait := some t }, effs) := by
  have hnr : s.isReading = false := by
    rcases hs with ⟨c, rfl⟩ | ⟨sl, rfl, _⟩ <;> rfl
  simp [Fixture.readStep, Fixture.pollRead, h, hnr]

/-- Witness for C4: a read against a pending `Writing` state would-blocks and
task 7 replaces the previously registered task 5. -/
theorem c4_read_would_block_witness :
    Fixture.readStep (fun _ => false) 7 ⟨some (State.writing ⟨[1], 0⟩), [], some 5⟩ 10
      = (ReadResult.wouldBlock, ⟨some (State.writing ⟨[1], 0⟩), [], some 7⟩, []) := by
  exact c4_read_would_block (fun _ => false) 7 ⟨some (State.writing ⟨[1], 0⟩), [], some 5⟩
    10 (State.writing ⟨[1], 0⟩) ⟨some (State.writing ⟨[1], 0⟩), [], some 5⟩ []
    (stateStep_writing_incomplete (fun _ => false) 7 [] (some 5) ⟨[1], 0⟩ (by decide))
    (Or.inl ⟨⟨[1], 0⟩, rfl⟩)

/-- C6 counterexample: on the exhausted fixture with task 7 registered as the
parked reader, `read` discovers end-of-stream (count 0) yet the registry is
not consulted: no task is unparked and the registration is left in place,
contradicting the claim that after a read discovering end-of-stream a parked
reader is woken when the script is exhausted. -/
theorem c6_eof_skips_wakeup_counterexample :
    (Fixture.readStep (fun _ => false) 0 ⟨none, [], some 7⟩ 10).1 = ReadResult.ok []
    ∧ ¬ ((Fixture.readStep (fun _ => false) 0 ⟨none, [], some 7⟩ 10).2.2 = [7]
        ∧ (Fixture.readStep (fun _ => false) 0 ⟨none, [], some 7⟩ 10).2.1.read_wait
            = none) := by
  decide

/-- C6 amended: after every successful data-copying read the waiter registry
is consulted through `maybe_wakeup_reader`, which wakes (takes and unparks)
the registered reader if and only if the driver-advanced Active State is then
`Reading` or the script is exhausted; a read that discovers end-of-stream
returns count 0 without consulting the registry. -/
theorem c6_wakeup_after_read (now : Dur → Bool) (t : TaskId) :
    (∀ (fx : Fixture) (c : Cursor) (dstLen : Nat),
      fx.state = some (State.reading c) → c.pos < c.data.length →
      fx.readStep now t dstLen
        = (ReadResult.ok ((c.data.drop c.pos).take (min dstLen (c.data.length - c.pos))),
           (Fixture.maybeWakeupReader now t
              ⟨some (State.reading ⟨c.data, c.pos + min dstLen (c.data.length - c.pos)⟩),
               fx.actions, fx.read_wait⟩).1,
           (Fixture.maybeWakeupReader now t
              ⟨some (State.reading ⟨c.data, c.pos + min dstLen (c.data.length - c.pos)⟩),
               fx.actions, fx.read_wait⟩).2))
  ∧ (∀ fx : Fixture,
      fx.maybeWakeupReader now t
        = if readingOrNone (fx.stateStep now t).1
          then ({ (fx.stateStep now t).2.1 with read_wait := none },
                (fx.stateStep now t).2.2 ++ fx.read_wait.toList)
          else ((fx.stateStep now t).2.1, (fx.stateStep now t).2.2))
  ∧ (∀ (fx : Fixture) (dstLen : Nat), fx.state = none → fx.actions = [] →
      fx.readStep now t dstLen = (ReadResult.ok [], fx, [])) := by
  refine ⟨?_, ?_, ?_⟩
  · intro fx c dstLen hs hp
    obtain ⟨st, a, w⟩ := fx
    have hs2 : st = some (State.reading c) := hs
    subst hs2
    have hstep := stateStep_reading_incomplete now t a w c hp
    simp [Fixture.readStep, Fixture.pollRead, hstep, State.isReading, Cursor.remaining]
  · intro fx
    rcases hr : fx.stateStep now t with ⟨s2, fx2, e2⟩
    have hw : fx2.read_wait = fx.read_wait := by
      have h0 := stateStep_read_wait now t fx
      rw [hr] at h0
      exact h0
    obtain ⟨s3, a3, w3⟩ := fx2
    rw [← hw]
    simp only [Fixture.maybeWakeupReader, hr]
    cases w3 <;> split <;> simp [Option.toList]
  · intro fx dstLen hs ha
    obtain ⟨st, a, w⟩ := fx
    have hs2 : st = none := hs
    have ha2 : a = [] := ha
    subst hs2; subst ha2
    simp [Fixture.readStep, Fixture.pollRead, stateStep_exhausted]

/-- Witness for the amended C6: draining `Reading([8], 0)` with reader 4
registered exposes the exhausted script, so the wakeup fires: task 4 is
unparked and the slot is cleared. -/
theorem c6_wakeup_after_read_witness :
    Fixture.readStep (fun _ => false) 0 ⟨some (State.reading ⟨[8], 0⟩), [], some 4⟩ 3
      = (ReadResult.ok [8], ⟨none, [], none⟩, [4]) := by
  have h := (c6_wakeup_after_read (fun _ => false) 0).1
    ⟨some (State.reading ⟨[8], 0⟩), [], some 4⟩ ⟨[8], 0⟩ 3 rfl (by decide)
  exact h.trans (by decide)

/-- Unfolding of the `load` loop: a successful run appends to the accumulated
script exactly the spec-described translation of the remaining blocks. -/
theorem loadGo_actions :
    ∀ (blocks : List Block) (fx : Fixture) (last : Dur) (fx2 : Fixture),
      loadGo fx last blocks = LoadResult.ok fx2 →
      fx2 = { fx with actions := fx.actions ++ loadSpecActions last blocks } := by
  intro blocks
  induction blocks with
  | nil =>
    intro fx last fx2 h
    simp only [loadGo, LoadResult.ok.injEq] at h
    simp [loadSpecActions, ← h]
  | cons b rest ih =>
    intro fx last fx2 h
    cases hd : b.direction
    case din =>
      simp only [loadGo, hd] at h
      have h2 := ih (fx.then_write b.data) b.elapsed fx2 h
      simp [h2, Fixture.then_write, loadSpecActions, hd]
    case dout =>
      simp only [loadGo, hd] at h
      split at h
      · cases h
      · have h2 := ih ((fx.then_wait (b.elapsed - last)).then_read b.data) b.elapsed fx2 h
        simp [h2, Fixture.then_wait, Fixture.then_read, loadSpecActions, hd]

/-- C7: a successful `load` translates the capture block by block in order: a
peer-to-us (`In`) block of payload `p` contributes `Write(p)`; an us-to-peer
(`Out`) block of payload `p` at elapsed `t` contributes `Wait(t - last)` then
`Read(p)`, with `last` the previous block's elapsed time.  In particular the
two-block capture of the claim loads to the script
`then_write([1,2,3]).then_wait(50).then_read([4,5,6,7])`. -/
theorem c7_load_translation :
    (∀ (blocks : List Block) (fx2 : Fixture),
      Fixture.load blocks = LoadResult.ok fx2 →
      fx2 = ⟨none, loadSpecActions 0 blocks, none⟩)
  ∧ Fixture.load [⟨Direction.din, [1,2,3], 0⟩, ⟨Direction.dout, [4,5,6,7], 50⟩]
      = LoadResult.ok
          (((Fixture.empty.then_write [1,2,3]).then_wait 50).then_read [4,5,6,7]) := by
  constructor
  · intro blocks fx2 h
    simp only [Fixture.load] at h
    have h2 := loadGo_actions blocks Fixture.empty 0 fx2 h
    simpa [Fixture.empty] using h2
  · decide

/-- Witness for C7: a one-block inbound capture loads to the single `Write`
action its translation prescribes. -/
theorem c7_load_translation_witness :
    (⟨none, [Action.write [9]], none⟩ : Fixture)
      = ⟨none, loadSpecActions 0 [⟨Direction.din, [9], 5⟩], none⟩ :=
  c7_load_translation.1 [⟨Direction.din, [9], 5⟩] ⟨none, [Action.write [9]], none⟩
    (by decide)

/-- C8: a capture whose timestamps go backwards is not rejected with a
recoverable construction error: an `In` block at elapsed 50 followed by an
`Out` block at elapsed 10 drives `block.elapsed() - last` into the `Duration`
subtraction underflow, a fatal panic, contradicting the spec's requirement
that malformed captures fail `load` as a recoverable result. -/
theorem c8_load_panics_on_backwards_time :
    Fixture.load [⟨Direction.din, [1], 50⟩, ⟨Direction.dout, [2], 10⟩]
      = LoadResult.panicked := by
  decide

/-- C9: whenever the Driver promotes a `Wait(duration)` action (the slot is
empty or the current state is complete and discarded), it starts the sleep,
polls it once immediately (the stored completion flag is that poll's answer),
and if the sleep is already elapsed it proactively unparks the current task;
otherwise no task is woken. -/
theorem c9_wait_promotion (now : Dur → Bool) (t : TaskId) (fx : Fixture)
    (dur : Dur) (rest : List Action)
    (hs : fx.state = none ∨ fx.isCurrentActionComplete = true)
    (ha : fx.actions = Action.wait dur :: rest) :
    fx.stateStep now t
      = (some (State.waiting ⟨dur, now dur⟩),
         ⟨some (State.waiting ⟨dur, now dur⟩), rest, fx.read_wait⟩,
         if now dur then [t] else []) := by
  obtain ⟨s, a, w⟩ := fx
  have ha2 : a = Action.wait dur :: rest := ha
  subst ha2
  rcases hs with hs2 | hc
  · have hs3 : s = none := hs2
    subst hs3
    simp [Fixture.stateStep, Fixture.isCurrentActionComplete]
  · simp [Fixture.stateStep, hc]

/-- Witness for C9: promoting a zero-duration `Wait` whose sleep is already
elapsed immediately unparks the current task 3. -/
theorem c9_wait_promotion_witness :
    Fixture.stateStep (fun _ => true) 3 ⟨none, [Action.wait 0], none⟩
      = (some (State.waiting ⟨0, true⟩),
         ⟨some (State.waiting ⟨0, true⟩), [], none⟩, [3]) := by
  have h := c9_wait_promotion (fun _ => true) 3 ⟨none, [Action.wait 0], none⟩ 0 []
    (Or.inl rfl) rfl
  exact h.trans (by decide)

/-- C10: `poll_write` returns `NotReady` for every fixture state — also when
the Active State is `Writing` — so write readiness is never signalled through
the polling interface. -/
theorem c10_poll_write_never_ready (fx : Fixture) :
    fx.pollWrite = Async.notReady := rfl

end Fx
